import Mathlib

/-!
# Shallow embedding of the Blisscribe symbol-resolution and layout engine

This file models the core of `blisscribe.py` (class `BlissTranslator`):
lexeme resolution (`getLexeme`, `isTranslatable`, synonym fallback via
`translateSynsets`), the per-token translation memory and glyph-selection
step of `translate`, the disambiguation map (`chooseDefn`), the coarse POS
mapping (`getWordPOS`), inter-glyph spacing, and the line/page layout loop.

External collaborators (the `pattern` morphology library, the `nltk`
tagger, WordNet synsets, and the filesystem holding symbol images) are
modelled as function-valued fields of a `Config` record: the source calls
them as pure services, so a fixed `Config` fixes their behaviour.
Python exceptions are modelled with `Except PyErr`.
-/

set_option autoImplicit false

namespace Blisscribe

/-- A Python exception relevant to the modelled code paths. -/
inductive PyErr where
  | keyError
  | ioError
  | indexError
  | assertionError
deriving DecidableEq, Repr

/-- A value of `bliss_dict`: either a single Blissymbol image filename or an
ordered list of candidate filenames (an ambiguous entry).  Mirrors the
source's "str or list" convention. -/
inductive BlissEntry where
  | single (img : String)
  | multiple (imgs : List String)
deriving DecidableEq, Repr

/-- The fixed per-session environment of a `BlissTranslator`: its language,
its loaded `bliss_dict` and (for Polish) `polish_lexicon`, the external
gateways (`pattern` morphology, `nltk` tagger, WordNet synsets, image
readability on disk) and the session flags. -/
structure Config where
  language : String
  bliss_dict : List (String × BlissEntry)
  polish_lexicon : List (String × String)
  /-- `pattern.text.<lang>.singularize` for this session's language. -/
  singularize : String → String
  /-- `pattern.text.<lang>.lemma` for this session's language. -/
  lemmaOf : String → String
  /-- `pattern.text.<lang>.predicative` for this session's language. -/
  predicativeOf : String → String
  /-- `nltk.pos_tag([word])[0][1]`: the tag the tagger gives a single word. -/
  tagOf : String → String
  /-- `wordnet.synsets(word, pos)`: each synset modelled as its ordered
  list of lemma names (the only accessor the source uses). -/
  synsetsPos : String → String → List (List String)
  /-- `wordnet.synsets(word)` without a POS restriction. -/
  synsetsAll : String → List (List String)
  /-- Whether `Image.open` succeeds on the given symbol filename. -/
  imgReadable : String → Bool
  fast_translate : Bool
  sub_all : Bool
  /-- `BlissTranslator.CHOSEN_POS`. -/
  chosen_pos : List String

/-- `BlissTranslator.STARTING_PUNCT` (the `\xe2\x80\x9x` byte strings are
the UTF-8 encodings of the curly quotation marks). -/
def STARTING_PUNCT : List String := ["(", "\"", "-", "“", "‘", "„"]

/-- `BlissTranslator.ENDING_PUNCT` (`"\xe2\x80\x9d"` and `u"”"` both
denote the same character and the set collapses them). -/
def ENDING_PUNCT : List String := [".", ",", ";", ":", "?", "!", ")", "\"", "-", "”", "’"]

/-- `isStartingPunct`. -/
def isStartingPunct (word : String) : Bool := STARTING_PUNCT.contains word

/-- `isEndingPunct`. -/
def isEndingPunct (word : String) : Bool := ENDING_PUNCT.contains word

/-- `isPunctuation`: membership in `PUNCTUATION`, the union of the two sets
plus the apostrophe. -/
def isPunctuation (word : String) : Bool :=
  isStartingPunct word || isEndingPunct word || word == "'"

/-- `BlissTranslator.DEFAULT_POS`. -/
def DEFAULT_POS : List String :=
  ["NN", "NNS", "VB", "VBD", "VBG", "VBN", "JJ", "JJR", "JJS"]

/-- `isChosenPOS`: membership in `CHOSEN_POS`. -/
def isChosenPOS (cfg : Config) (pos : String) : Bool := cfg.chosen_pos.contains pos

/-- `word in self.bliss_dict` (Python dict key membership). -/
def dictHas (cfg : Config) (word : String) : Bool :=
  (cfg.bliss_dict.lookup word).isSome

/-- The languages `getSingular`/`getInfinitive`/`getPredicative` dispatch to
a `pattern.text` module for; any other language returns the word unchanged. -/
def MORPH_LANGS : List String :=
  ["English", "Spanish", "German", "French", "Italian", "Dutch"]

/-- `getSingular`. -/
def getSingular (cfg : Config) (word : String) : String :=
  if MORPH_LANGS.contains cfg.language then cfg.singularize word else word

/-- `getInfinitive`. -/
def getInfinitive (cfg : Config) (word : String) : String :=
  if MORPH_LANGS.contains cfg.language then cfg.lemmaOf word else word

/-- `getPredicative`. -/
def getPredicative (cfg : Config) (word : String) : String :=
  if MORPH_LANGS.contains cfg.language then cfg.predicativeOf word else word

/-- `getLexeme`: direct key hit, else (for Polish) the `polish_lexicon`
lookup, else the singular / infinitive / predicative chain, else the word
itself. -/
def getLexeme (cfg : Config) (word : String) : String :=
  if dictHas cfg word then word
  else if cfg.language == "Polish" then
    match cfg.polish_lexicon.lookup word with
    | some lex => lex
    | none => word
  else if dictHas cfg (getSingular cfg word) then getSingular cfg word
  else if dictHas cfg (getInfinitive cfg word) then getInfinitive cfg word
  else if dictHas cfg (getPredicative cfg word) then getPredicative cfg word
  else word

/-- `isTranslatable`. -/
def isTranslatable (cfg : Config) (word : String) : Bool :=
  dictHas cfg (getLexeme cfg word)

/-- `getWordTag`. -/
def getWordTag (cfg : Config) (word : String) : String := cfg.tagOf word

/-- `isNoun`: the tag's first two characters are `NN`. -/
def isNoun (cfg : Config) (word : String) : Bool :=
  (getWordTag cfg word).take 2 == "NN"

/-- `isPluralNoun`. -/
def isPluralNoun (cfg : Config) (word : String) : Bool :=
  getWordTag cfg word == "NNS"

/-- `isVerb`. -/
def isVerb (cfg : Config) (word : String) : Bool :=
  (getWordTag cfg word).take 2 == "VB"

/-- `isAdj`. -/
def isAdj (cfg : Config) (word : String) : Bool :=
  (getWordTag cfg word).take 2 == "JJ"

/-- `getWordPOS`: the coarse WordNet POS letter for a word. -/
def getWordPOS (cfg : Config) (word : String) : String :=
  if isNoun cfg word then "n"
  else if isVerb cfg word then "v"
  else if isAdj cfg word then "a"
  else if (getWordTag cfg word).take 2 == "RB" then "r"
  else "n"

/-- `getWordSynsets`: POS-restricted synsets, falling back to the
unrestricted query when the restricted one is empty. -/
def getWordSynsets (cfg : Config) (word : String) : List (List String) :=
  let synsets := cfg.synsetsPos word (getWordPOS cfg word)
  if synsets.isEmpty then cfg.synsetsAll word else synsets

/-- The inner loop of `translateSynsets` over one synset's lemma names. -/
def translateLemmas (cfg : Config) : List String → Option String
  | [] => none
  | l :: ls =>
    if isTranslatable cfg l then some (getLexeme cfg l) else translateLemmas cfg ls

/-- `translateSynsets`: the first lemma over all synsets (in order) that is
translatable yields its lexeme; otherwise the empty string. -/
def translateSynsets (cfg : Config) : List (List String) → String
  | [] => ""
  | s :: ss =>
    match translateLemmas cfg s with
    | some lex => lex
    | none => translateSynsets cfg ss

/-- `translateUntranslatable`. -/
def translateUntranslatable (cfg : Config) (word : String) : String :=
  translateSynsets cfg (getWordSynsets cfg word)

/-- `isSynonymTranslatable`. -/
def isSynonymTranslatable (cfg : Config) (word : String) : Bool :=
  translateUntranslatable cfg word != ""

/-- `canBeTranslated`. -/
def canBeTranslated (cfg : Config) (word : String) : Bool :=
  isTranslatable cfg word || isSynonymTranslatable cfg word

/-- The mutable per-session translation-memory state: `words_seen` and
`words_changed` (boolean-defaulted dicts, i.e. key sets) and the sticky
`defns_chosen` map from ambiguous word to chosen (0-based, post-decrement)
index. -/
structure TransState where
  words_seen : List String
  words_changed : List String
  defns_chosen : List (String × Int)
deriving DecidableEq, Repr

/-- The empty state a fresh `BlissTranslator` starts with. -/
def TransState.empty : TransState := ⟨[], [], []⟩

deriving instance DecidableEq for Except

/-- `isSeen`: key membership in `words_seen`. -/
def isSeen (st : TransState) (word : String) : Bool := st.words_seen.contains word

/-- `addSeen`. -/
def addSeen (st : TransState) (word : String) : TransState :=
  { st with words_seen := word :: st.words_seen }

/-- `isChanged`. -/
def isChanged (st : TransState) (word : String) : Bool := st.words_changed.contains word

/-- `addChanged`. -/
def addChanged (st : TransState) (word : String) : TransState :=
  { st with words_changed := word :: st.words_changed }

/-- `initSeenChanged`: re-creates `words_seen` and `words_changed` as empty
default dicts; `defns_chosen` is untouched. -/
def initSeenChanged (st : TransState) : TransState :=
  { st with words_seen := [], words_changed := [] }

/-- Python list indexing `defns[i]` succeeds (no `IndexError`) exactly when
`-len(defns) <= i < len(defns)`. -/
def pyIndexOk (n : Nat) (i : Int) : Prop := -(n : Int) ≤ i ∧ i < (n : Int)

instance (n : Nat) (i : Int) : Decidable (pyIndexOk n i) := by
  unfold pyIndexOk; infer_instance

/-- `chooseDefn`: a sticky choice is returned directly; otherwise
`bliss_dict[word]` (KeyError if absent, `assert type == list`) is consulted,
the console is read (`userChoice`, modelled as the raised value), the raw
choice is validated by `defns[choice]`, and on success `choice - 1` is
persisted and returned while on `IndexError` `0` is returned unpersisted.
The third component records whether the console was consulted. -/
def chooseDefn (cfg : Config) (st : TransState) (word : String) (userChoice : Int) :
    Except PyErr (Int × TransState × Bool) :=
  match st.defns_chosen.lookup word with
  | some c => .ok (c, st, false)
  | none =>
    match cfg.bliss_dict.lookup word with
    | none => .error .keyError
    | some (.single _) => .error .assertionError
    | some (.multiple defns) =>
      if pyIndexOk defns.length userChoice then
        .ok (userChoice - 1,
          { st with defns_chosen := (word, userChoice - 1) :: st.defns_chosen }, true)
      else
        .ok (0, st, true)

/-- `getBlissImg` (with `choosing=False`, the only way `translate` and
`drawAlphabet` call it, so an ambiguous entry uses index 0): yields the
filename `Image.open` succeeds on, `KeyError` when the word is not a
`bliss_dict` key, `IOError` when the image file cannot be read. -/
def getBlissImg (cfg : Config) (word : String) : Except PyErr String :=
  if word == "indicator (plural)" then
    if cfg.imgReadable "indicator_(plural).png" then .ok "indicator_(plural).png"
    else .error .ioError
  else
    match cfg.bliss_dict.lookup word with
    | none => .error .keyError
    | some (.multiple defns) =>
      match defns.head? with
      | none => .error .indexError
      | some img => if cfg.imgReadable img then .ok img else .error .ioError
    | some (.single img) => if cfg.imgReadable img then .ok img else .error .ioError

/-- Python's `str.lower()`, modelled character-wise (`translate` applies
it to every token to build `raw_phrase`). -/
def pyLower (s : String) : String := ⟨s.data.map Char.toLower⟩

/-- The glyph unit `translate` pastes for one token: rendered text of the
surface token (`getWordImg`), a bare Blissymbol (`getBlissImg`), a
symbol-plus-subtitle compound (`drawAlphabet`), or one of those with the
plural indicator affixed (`getPluralImg`). -/
inductive Glyph where
  | text (word : String)
  | symbol (lexeme : String)
  | symbolSub (word : String)
  | plural (g : Glyph)
deriving DecidableEq, Repr

/-- The per-token body of `translate` (lines 1356-1392): glyph selection
plus translation-memory updates for a token with its position's tag from
`tagged_list`.  `token` is the raw `token_phrase[idx]`; the loop variable
`word` is its lowercasing (`raw_phrase`).  Exceptions the source leaves
uncaught are propagated: the handler `except KeyError or IOError` only
catches `KeyError`, because the Python expression `KeyError or IOError`
evaluates to `KeyError`. -/
def translateStep (cfg : Config) (st : TransState) (token tag : String) :
    Except PyErr (Glyph × TransState) :=
  let word := pyLower token
  let lexeme := getLexeme cfg word
  if !isPunctuation word && isChosenPOS cfg tag && canBeTranslated cfg lexeme then
    if cfg.fast_translate || isSeen st lexeme then
      let new_lexeme :=
        if isTranslatable cfg lexeme then lexeme
        else getLexeme cfg (translateUntranslatable cfg word)
      match getBlissImg cfg new_lexeme with
      | .error .keyError => .ok (.text token, st)
      | .error e => .error e
      | .ok _ =>
        let sel : Glyph × TransState :=
          if isChanged st lexeme && !cfg.sub_all then
            (.symbol new_lexeme, st)
          else
            (.symbolSub word, addChanged st lexeme)
        if isPluralNoun cfg word then
          match getBlissImg cfg "indicator (plural)" with
          | .error e => .error e
          | .ok _ => .ok (.plural sel.1, sel.2)
        else
          .ok sel
    else
      .ok (.text token, addSeen st lexeme)
  else
    .ok (.text token, st)

/-- `getSpaceSize`: `int(font_size / 1.5)`; as `font_size / 1.5` equals the
rational `2 * font_size / 3` exactly and `int` truncates a non-negative
float, this is Nat division. -/
def getSpaceSize (font_size : Nat) : Nat := 2 * font_size / 3

/-- `getMinSpace`. -/
def getMinSpace : Nat := 2

/-- The inter-glyph spacing decision of `translate` (lines 1403-1410): the
default space possibly overridden by the first matching rule of the
`if`/`elif` chain.  The chain reads only the current and next token. -/
def spaceFor (font_size : Nat) (this_word next_word1 : String) : Nat :=
  if next_word1 == "n't" then getMinSpace
  else if isEndingPunct this_word && isEndingPunct next_word1 then getMinSpace
  else if isStartingPunct next_word1 || isEndingPunct this_word then getSpaceSize font_size
  else if isEndingPunct next_word1 || isStartingPunct this_word then getMinSpace
  else getSpaceSize font_size

/-- The page-geometry inputs of `translate`'s layout loop: `font_size`,
the page dimensions `img_w`/`img_h`, and `textWidth`, the external measure
`getWordWidth` applies to a string via the rasterizer (`trimHorizontal ∘
getWordImg`). -/
structure LayoutConfig where
  font_size : Nat
  img_w : Nat
  img_h : Nat
  textWidth : String → Nat

/-- `getWordWidth` on a string argument: a newline has width 0, anything
else is measured by the renderer. -/
def getWordWidth (tw : String → Nat) (word : String) : Nat :=
  if word == "\n" then 0 else tw word

/-- One pasted glyph: its x-coordinate (`indent`), its line number (the
paste y-coordinate is `lineNo * (font_size * 3)`), and its width. -/
structure Placement where
  x : Nat
  lineNo : Nat
  width : Nat
deriving DecidableEq, Repr

/-- The layout cursor of `translate`: `indent`, `line_no`, the number of
pages already finalized, and the placements made so far (most recent
first). -/
structure LayoutState where
  indent : Nat
  line_no : Nat
  pagesDone : Nat
  placements : List Placement
deriving DecidableEq, Repr

/-- The cursor `translate` starts with: `indent = self.font_size`,
`line_no = 0`. -/
def initLayout (cfg : LayoutConfig) : LayoutState :=
  { indent := cfg.font_size, line_no := 0, pagesDone := 0, placements := [] }

/-- The line-wrap decision (lines 1413-1423): updated `(indent, line_no)`
before pasting the current glyph of width `w`. -/
def wrapDecision (cfg : LayoutConfig) (indent line_no : Nat)
    (this_word next_word1 next_word2 : String) (w space : Nat) : Nat × Nat :=
  if indent + w > cfg.img_w then (0, line_no + 1)
  else if isEndingPunct next_word2 || isStartingPunct next_word1 then
    if indent + w + getWordWidth cfg.textWidth next_word1 + space * 2 +
        getWordWidth cfg.textWidth next_word2 > cfg.img_w then
      (0, line_no + 1)
    else (indent, line_no)
  else if this_word == "\n" then (cfg.font_size, line_no + 1)
  else (indent, line_no)

/-- The page-break decision (lines 1425-1430): when the next line would
run past the page, the canvas is stored and the line counter reset (the
indent is kept). -/
def pageDecision (cfg : LayoutConfig) (line_no pages : Nat) : Nat × Nat :=
  if (line_no + 1) * (cfg.font_size * 3) > cfg.img_h then (0, pages + 1)
  else (line_no, pages)

/-- One iteration of `translate`'s layout loop for a glyph of width `w`
whose token is `this_word` with lookahead tokens `next_word1`/`next_word2`
(empty strings past the end, per `getWordAtIndex`). -/
def layoutStep (cfg : LayoutConfig) (st : LayoutState)
    (this_word next_word1 next_word2 : String) (w : Nat) : LayoutState :=
  let space := spaceFor cfg.font_size this_word next_word1
  let wd := wrapDecision cfg st.indent st.line_no this_word next_word1 next_word2 w space
  let pd := pageDecision cfg wd.2 st.pagesDone
  { indent := wd.1 + w + space,
    line_no := pd.1,
    pagesDone := pd.2,
    placements := { x := wd.1, lineNo := pd.1, width := w } :: st.placements }

/-- `getWordAtIndex` restricted to the suffix after the current token:
the token `n` positions further on, or the empty string past the end. -/
def tokenAt : List (String × Nat) → Nat → String
  | [], _ => ""
  | (t, _) :: _, 0 => t
  | _ :: rest, n + 1 => tokenAt rest n

/-- The whole layout loop of `translate`, consuming tokens paired with the
widths of their selected glyphs. -/
def layoutRun (cfg : LayoutConfig) : LayoutState → List (String × Nat) → LayoutState
  | st, [] => st
  | st, (t, w) :: rest =>
    layoutRun cfg (layoutStep cfg st t (tokenAt rest 0) (tokenAt rest 1) w) rest

/-- The bound the spec asserts of every placement: the glyph's right edge
is within the page width and its line's bottom edge (`(line_no + 1) *
line_height` with `line_height = font_size * 3`) is within the page
height. -/
def placedOK (cfg : LayoutConfig) (p : Placement) : Prop :=
  p.x + p.width ≤ cfg.img_w ∧ (p.lineNo + 1) * (cfg.font_size * 3) ≤ cfg.img_h

instance (cfg : LayoutConfig) (p : Placement) : Decidable (placedOK cfg p) := by
  unfold placedOK; infer_instance

/-! ## Spec-side definitions

These follow the specification's words, to be compared with the
definitions above that embed the source. -/

/-- The resolution chain as the spec states it: direct key hit, else the
singular / infinitive / predicative forms in order, returning the first
that is a Lexicon key, else falling through with the word unchanged.
(No special case for any language.) -/
def getLexemeChain (cfg : Config) (word : String) : String :=
  if dictHas cfg word then word
  else if dictHas cfg (getSingular cfg word) then getSingular cfg word
  else if dictHas cfg (getInfinitive cfg word) then getInfinitive cfg word
  else if dictHas cfg (getPredicative cfg word) then getPredicative cfg word
  else word

/-- The first lemma of a synset that is itself a Lexicon key (the spec's
candidate test: no normalization of synonym candidates). -/
def firstKeyLemma (cfg : Config) : List String → Option String
  | [] => none
  | l :: ls => if dictHas cfg l then some l else firstKeyLemma cfg ls

/-- Synonym fallback as the spec states it: scan synsets in order, within
each synset scan lemmas in order, and return the first lemma that is
itself a Lexicon key, with no morphological normalization applied. -/
def translateSynsetsSpec (cfg : Config) : List (List String) → String
  | [] => ""
  | s :: ss =>
    match firstKeyLemma cfg s with
    | some l => l
    | none => translateSynsetsSpec cfg ss

/-- Synonym fallback as the code actually behaves, stated with an explicit
first-match search: the first lemma (synsets in gateway order, lemmas in
order) whose `getLexeme` normalization is a Lexicon key yields that
normalized lexeme. -/
def translateSynsetsNormalized (cfg : Config) : List (List String) → String
  | [] => ""
  | s :: ss =>
    match s.find? (fun l => isTranslatable cfg l) with
    | some l => getLexeme cfg l
    | none => translateSynsetsNormalized cfg ss

/-- The spacing chain as the spec states it, including its fourth rule
"minimal when the next-next token is closing punctuation while the next
token is not opening punctuation". -/
def spaceForSpec (font_size : Nat) (this_word next_word1 next_word2 : String) : Nat :=
  if next_word1 == "n't" then getMinSpace
  else if isEndingPunct this_word && isEndingPunct next_word1 then getMinSpace
  else if isStartingPunct next_word1 || isEndingPunct this_word then getSpaceSize font_size
  else if isEndingPunct next_word2 && !isStartingPunct next_word1 then getMinSpace
  else getSpaceSize font_size

/-! ## Concrete sessions used by counterexamples and witnesses -/

/-- An English session whose Lexicon holds `cat` and `run`, whose
singularizer maps `cats` to `cat` and whose lemmatizer maps `running` to
`run`; every image file is readable; fast mode. -/
def cfgEng : Config where
  language := "English"
  bliss_dict := [("cat", .single "cat.png"), ("run", .single "run.png")]
  polish_lexicon := []
  singularize := fun w => if w == "cats" then "cat" else w
  lemmaOf := fun w => if w == "running" then "run" else w
  predicativeOf := fun w => w
  tagOf := fun w => if w == "running" then "VBG" else "NN"
  synsetsPos := fun _ _ => []
  synsetsAll := fun _ => []
  imgReadable := fun _ => true
  fast_translate := true
  sub_all := false
  chosen_pos := DEFAULT_POS

/-- A Polish session: empty Lexicon, a Polish inflection lexicon mapping
`kota` to `kot`, identity gateways. -/
def cfgPolish : Config where
  language := "Polish"
  bliss_dict := []
  polish_lexicon := [("kota", "kot")]
  singularize := fun w => w
  lemmaOf := fun w => w
  predicativeOf := fun w => w
  tagOf := fun _ => "NN"
  synsetsPos := fun _ _ => []
  synsetsAll := fun _ => []
  imgReadable := fun _ => true
  fast_translate := false
  sub_all := false
  chosen_pos := DEFAULT_POS

/-- An English session with an ambiguous entry `dog` (two candidate
images) next to `cat`. -/
def cfgAmb : Config where
  language := "English"
  bliss_dict := [("dog", .multiple ["dog_a.png", "dog_b.png"]), ("cat", .single "cat.png")]
  polish_lexicon := []
  singularize := fun w => w
  lemmaOf := fun w => w
  predicativeOf := fun w => w
  tagOf := fun _ => "NN"
  synsetsPos := fun _ _ => []
  synsetsAll := fun _ => []
  imgReadable := fun _ => true
  fast_translate := true
  sub_all := false
  chosen_pos := DEFAULT_POS

/-- `cfgEng` with every symbol-image file unreadable (`Image.open` raises
`IOError`). -/
def cfgBadImg : Config :=
  { cfgEng with imgReadable := fun _ => false }

/-- A session whose tagger tags every word as an adverb (`RB`). -/
def cfgAdv : Config :=
  { cfgEng with tagOf := fun _ => "RB" }

/-- A tiny page: width and height 50 px at font size 30. -/
def layoutTiny : LayoutConfig where
  font_size := 30
  img_w := 50
  img_h := 50
  textWidth := fun _ => 10

/-- A regular page (the source's 816 x 1056 default) at font size 30. -/
def layoutPage : LayoutConfig where
  font_size := 30
  img_w := 816
  img_h := 1056
  textWidth := fun _ => 10

/-! ## C1: lexeme resolution chain -/

/-- C1 counterexample: in a Polish session the claimed chain does not
describe `getLexeme`.  With an empty Lexicon and the Polish inflection
lexicon mapping `kota` to `kot`, no form of `kota` is a Lexicon key, so by
the claim resolution falls through with the word unchanged (`getLexemeChain`
returns `kota`); the code instead returns `kot`, which is not a Lexicon
key and not the input. -/
theorem polish_branch_breaks_chain_cex :
    getLexeme cfgPolish "kota" = "kot" ∧
    getLexemeChain cfgPolish "kota" = "kota" ∧
    dictHas cfgPolish "kot" = false := by decide

/-- C1 (amended): for every session whose language is not Polish, lexeme
resolution is exactly the ordered, short-circuiting chain the claim
states: the word itself if it is a Lexicon key, else the first of
singular, infinitive, predicative that is a key, else the word unchanged
(falling through to synonym lookup / the untranslatable case). -/
theorem getLexeme_eq_chain_nonPolish (cfg : Config) (word : String)
    (h : cfg.language ≠ "Polish") :
    getLexeme cfg word = getLexemeChain cfg word := by
  unfold getLexeme getLexemeChain
  have hb : (cfg.language == "Polish") = false := beq_eq_false_iff_ne.mpr h
  simp only [hb, Bool.false_eq_true, if_false]

/-- C1 witness: the chain equality at an English session and the word
`cats`. -/
theorem getLexeme_eq_chain_nonPolish_witness :
    cfgEng.language ≠ "Polish" ∧ getLexeme cfgEng "cats" = getLexemeChain cfgEng "cats" :=
  ⟨by decide, getLexeme_eq_chain_nonPolish cfgEng "cats" (by decide)⟩

/-! ## C4: synonym fallback -/

/-- C4 counterexample: the synonym scan does normalize candidates.  With
Lexicon key `cat` and the synset candidate `cats` (not itself a key), the
claim says the candidate is skipped and the scan fails (`translateSynsetsSpec`
returns the empty string); the code singularizes the candidate and returns
`cat`. -/
theorem synonym_normalization_cex :
    translateSynsets cfgEng [["cats"]] = "cat" ∧
    translateSynsetsSpec cfgEng [["cats"]] = "" ∧
    dictHas cfgEng "cats" = false := by decide

/-- The inner lemma scan of `translateSynsets` is the first-match search
for a translatable lemma, mapped through `getLexeme`. -/
theorem translateLemmas_eq_find (cfg : Config) (s : List String) :
    translateLemmas cfg s = (s.find? (fun l => isTranslatable cfg l)).map (getLexeme cfg) := by
  induction s with
  | nil => rfl
  | cons l ls ih =>
    by_cases hl : isTranslatable cfg l = true
    · simp [translateLemmas, List.find?, hl]
    · simp only [Bool.not_eq_true] at hl
      simp [translateLemmas, List.find?, hl, ih]

/-- C4 (amended): synonym fallback scans synsets in gateway order and
candidate lemmas within each synset in order, and returns the
`getLexeme`-normalized form of the first candidate whose normalized form
is a Lexicon key — i.e. full morphological normalization is applied to
each synonym candidate, and the normalized lexeme (not the candidate) is
returned. -/
theorem translateSynsets_normalizes (cfg : Config) (synsets : List (List String)) :
    translateSynsets cfg synsets = translateSynsetsNormalized cfg synsets := by
  induction synsets with
  | nil => rfl
  | cons s ss ih =>
    simp only [translateSynsets, translateSynsetsNormalized, translateLemmas_eq_find, ih]
    cases s.find? (fun l => isTranslatable cfg l) <;> simp

/-! ## C5: out-of-range disambiguation choice -/

/-- C5 counterexample: on an out-of-range choice (5 for a two-candidate
entry) `chooseDefn` returns the clamped index 0 but leaves `defns_chosen`
untouched — the clamped choice is not persisted, contrary to the claim. -/
theorem chooseDefn_clamp_not_persisted_cex :
    chooseDefn cfgAmb TransState.empty "dog" 5 = .ok (0, TransState.empty, true) ∧
    TransState.empty.defns_chosen = [] := by decide

/-- C5 (amended): when the choice for an ambiguous word with no sticky
entry is out of range for the candidate list (it raises `IndexError`:
at least the length or below minus the length), `chooseDefn` clamps the
result to the first candidate (index 0) and returns it without aborting —
but it does not persist the clamped choice: the state is returned
unchanged, so the question will be asked again. -/
theorem chooseDefn_out_of_range (cfg : Config) (st : TransState) (word : String)
    (defns : List String) (userChoice : Int)
    (h0 : st.defns_chosen.lookup word = none)
    (hd : cfg.bliss_dict.lookup word = some (.multiple defns))
    (hr : ¬ pyIndexOk defns.length userChoice) :
    chooseDefn cfg st word userChoice = .ok (0, st, true) := by
  simp only [chooseDefn, h0, hd]
  exact if_neg hr

/-- C5 witness: the out-of-range behaviour at the concrete ambiguous
session. -/
theorem chooseDefn_out_of_range_witness :
    chooseDefn cfgAmb TransState.empty "dog" 7 = .ok (0, TransState.empty, true) :=
  chooseDefn_out_of_range cfgAmb TransState.empty "dog" ["dog_a.png", "dog_b.png"] 7
    (by decide) (by decide) (by decide)

/-! ## C6: sticky disambiguation -/

/-- C6: once a first valid (in-range) choice has been recorded for an
ambiguous word, every later `chooseDefn` lookup — with any console value,
also after `initSeenChanged` resets the seen/changed memory at the end of
a `translate` call — returns the recorded index without consulting the
console (third component `false`), and `initSeenChanged` leaves the
sticky map untouched. -/
theorem sticky_choice (cfg : Config) (st : TransState) (word : String)
    (defns : List String) (uc1 uc2 : Int)
    (h0 : st.defns_chosen.lookup word = none)
    (hd : cfg.bliss_dict.lookup word = some (.multiple defns))
    (hr : pyIndexOk defns.length uc1) :
    ∃ st' : TransState,
      chooseDefn cfg st word uc1 = .ok (uc1 - 1, st', true) ∧
      chooseDefn cfg st' word uc2 = .ok (uc1 - 1, st', false) ∧
      chooseDefn cfg (initSeenChanged st') word uc2 =
        .ok (uc1 - 1, initSeenChanged st', false) ∧
      (initSeenChanged st').defns_chosen = st'.defns_chosen := by
  refine ⟨{ st with defns_chosen := (word, uc1 - 1) :: st.defns_chosen }, ?_, ?_, ?_, rfl⟩
  · simp only [chooseDefn, h0, hd]
    exact if_pos hr
  · unfold chooseDefn
    simp [List.lookup]
  · unfold chooseDefn initSeenChanged
    simp [List.lookup]

/-- C6 witness: choice 1 for `dog` is recorded as index 0 and returned on
a later lookup with a different console value, surviving the seen/changed
reset. -/
theorem sticky_choice_witness :
    ∃ st' : TransState,
      chooseDefn cfgAmb TransState.empty "dog" 1 = .ok (1 - 1, st', true) ∧
      chooseDefn cfgAmb st' "dog" 7 = .ok (1 - 1, st', false) ∧
      chooseDefn cfgAmb (initSeenChanged st') "dog" 7 =
        .ok (1 - 1, initSeenChanged st', false) ∧
      (initSeenChanged st').defns_chosen = st'.defns_chosen :=
  sticky_choice cfgAmb TransState.empty "dog" ["dog_a.png", "dog_b.png"] 1 7
    (by decide) (by decide) (by decide)

/-! ## C7: inter-glyph spacing -/

/-- C7 counterexample: with an ordinary current and next token followed by
a closing full stop, the claim's chain (whose fourth rule keys on the
next-next token) gives the minimal 2 px gap, but the code gives the
default space: the code's fourth rule reads the next and current tokens,
never the next-next one. -/
theorem spacing_rule_four_cex :
    spaceFor 30 "a" "b" = 20 ∧
    spaceForSpec 30 "a" "b" "." = 2 ∧
    spaceFor 30 "a" "b" ≠ spaceForSpec 30 "a" "b" "." := by decide

/-- C7 (amended): inter-glyph spacing is a priority chain over the current
and next token only (first matching rule wins): default `font_size / 1.5`
floored; minimal 2 px when the next token is `n't`, or the current and
next tokens are both closing punctuation; the default space when the next
token is opening punctuation or the current token is closing punctuation;
minimal when the next token is closing punctuation or the current token is
opening punctuation; otherwise the default. -/
theorem spacing_priority_chain (font_size : Nat) (this_word next_word1 : String) :
    (next_word1 = "n't" → spaceFor font_size this_word next_word1 = getMinSpace) ∧
    (next_word1 ≠ "n't" →
      (isEndingPunct this_word && isEndingPunct next_word1) = true →
      spaceFor font_size this_word next_word1 = getMinSpace) ∧
    (next_word1 ≠ "n't" →
      (isEndingPunct this_word && isEndingPunct next_word1) = false →
      (isStartingPunct next_word1 || isEndingPunct this_word) = true →
      spaceFor font_size this_word next_word1 = getSpaceSize font_size) ∧
    (next_word1 ≠ "n't" →
      (isEndingPunct this_word && isEndingPunct next_word1) = false →
      (isStartingPunct next_word1 || isEndingPunct this_word) = false →
      (isEndingPunct next_word1 || isStartingPunct this_word) = true →
      spaceFor font_size this_word next_word1 = getMinSpace) ∧
    (next_word1 ≠ "n't" →
      (isEndingPunct this_word && isEndingPunct next_word1) = false →
      (isStartingPunct next_word1 || isEndingPunct this_word) = false →
      (isEndingPunct next_word1 || isStartingPunct this_word) = false →
      spaceFor font_size this_word next_word1 = getSpaceSize font_size) := by
  refine ⟨fun h1 => ?_, fun h1 h2 => ?_, fun h1 h2 h3 => ?_,
    fun h1 h2 h3 h4 => ?_, fun h1 h2 h3 h4 => ?_⟩
  · simp [spaceFor, h1]
  all_goals
    simp_all [spaceFor, beq_eq_false_iff_ne.mpr h1]

/-- C7 witness: an opening parenthesis before an ordinary word takes the
fourth rule's minimal gap. -/
theorem spacing_priority_chain_witness :
    spaceFor 30 "(" "b" = getMinSpace :=
  (spacing_priority_chain 30 "(" "b").2.2.2.1 (by decide) (by decide) (by decide) (by decide)

/-! ## C9: coarse POS mapping -/

/-- C9 counterexample: an adverb-tagged word receives the adverb POS `r`,
not the noun POS `n` the claim asserts, so its synonym lookup is an
adverb WordNet query. -/
theorem adverb_pos_cex :
    getWordPOS cfgAdv "quickly" = "r" ∧ ("r" : String) ≠ "n" := by decide

/-- C9 (amended): in the coarse POS mapping used for synonym lookup, a
token whose tag is not noun-, verb- or adjective-like gets the adverb POS
`r` when its tag starts with `RB`, and the noun POS `n` for every other
unclassified tag. -/
theorem coarse_pos_mapping (cfg : Config) (word : String)
    (h1 : (getWordTag cfg word).take 2 ≠ "NN")
    (h2 : (getWordTag cfg word).take 2 ≠ "VB")
    (h3 : (getWordTag cfg word).take 2 ≠ "JJ") :
    ((getWordTag cfg word).take 2 = "RB" → getWordPOS cfg word = "r") ∧
    ((getWordTag cfg word).take 2 ≠ "RB" → getWordPOS cfg word = "n") := by
  constructor <;> intro h4 <;>
    simp_all [getWordPOS, isNoun, isVerb, isAdj,
      beq_eq_false_iff_ne.mpr h1, beq_eq_false_iff_ne.mpr h2, beq_eq_false_iff_ne.mpr h3]

/-- C9 witness: the adverb case at the concrete adverb-tagging session. -/
theorem coarse_pos_mapping_witness :
    getWordPOS cfgAdv "quickly" = "r" :=
  (coarse_pos_mapping cfgAdv "quickly" (by decide) (by decide) (by decide)).1 (by decide)

/-! ## C2: translation-memory glyph policy -/

/-- C2: glyph choice for a translatable, POS-chosen, non-punctuation,
non-plural token whose Blissymbol image is producible follows the
translation-memory policy: with `fast_translate` off, a first (unseen)
occurrence is rendered as plain text and the lexeme marked seen; once
seen (or always, in fast mode), a not-yet-changed lexeme — or any lexeme
when `sub_all` is on — is rendered as a symbol with subtitle and marked
changed; a changed lexeme with `sub_all` off is rendered as a bare symbol
with no subtitle and no state change. -/
theorem glyph_policy (cfg : Config) (st : TransState) (token tag lexeme : String)
    (hl : lexeme = getLexeme cfg (pyLower token))
    (hp : isPunctuation (pyLower token) = false)
    (hc : isChosenPOS cfg tag = true)
    (ht : isTranslatable cfg lexeme = true)
    (himg : ∃ img, getBlissImg cfg lexeme = .ok img)
    (hpl : isPluralNoun cfg (pyLower token) = false) :
    (cfg.fast_translate = false → isSeen st lexeme = false →
      translateStep cfg st token tag = .ok (.text token, addSeen st lexeme)) ∧
    ((cfg.fast_translate = true ∨ isSeen st lexeme = true) →
      (isChanged st lexeme = false ∨ cfg.sub_all = true) →
      translateStep cfg st token tag =
        .ok (.symbolSub (pyLower token), addChanged st lexeme)) ∧
    ((cfg.fast_translate = true ∨ isSeen st lexeme = true) →
      isChanged st lexeme = true → cfg.sub_all = false →
      translateStep cfg st token tag = .ok (.symbol lexeme, st)) := by
  obtain ⟨img, himg⟩ := himg
  subst hl
  have hcb : canBeTranslated cfg (getLexeme cfg (pyLower token)) = true := by
    simp [canBeTranslated, ht]
  refine ⟨fun hf hs => ?_, fun hfs hcs => ?_, fun hfs hch hsa => ?_⟩
  · simp [translateStep, hp, hc, hcb, hf, hs]
  · have hfs2 : (cfg.fast_translate || isSeen st (getLexeme cfg (pyLower token))) = true := by
      rcases hfs with h | h <;> simp [h]
    have hcs2 : (isChanged st (getLexeme cfg (pyLower token)) && !cfg.sub_all) = false := by
      rcases hcs with h | h <;> simp [h]
    simp [translateStep, hp, hc, hcb, hfs2, ht, himg, hcs2, hpl]
  · have hfs2 : (cfg.fast_translate || isSeen st (getLexeme cfg (pyLower token))) = true := by
      rcases hfs with h | h <;> simp [h]
    simp [translateStep, hp, hc, hcb, hfs2, ht, himg, hch, hsa, hpl]

/-- C2 witness: in fast mode the first `cat` is a symbol with subtitle and
marks the lexeme changed. -/
theorem glyph_policy_witness :
    translateStep cfgEng TransState.empty "cat" "NN" =
      .ok (.symbolSub (pyLower "cat"), addChanged TransState.empty "cat") :=
  (glyph_policy cfgEng TransState.empty "cat" "NN" "cat" (by decide) (by decide)
    (by decide) (by decide) ⟨"cat.png", by decide⟩ (by decide)).2.1
    (Or.inl (by decide)) (Or.inl (by decide))

/-! ## C3: missing glyph asset -/

/-- C3: the code does not satisfy the claim for an unreadable image asset.
When the Lexicon entry exists but its image file is unreadable,
`getBlissImg` raises `IOError` and the per-token body of `translate`
propagates it instead of falling back to text — the handler
`except KeyError or IOError` only catches `KeyError`, because the Python
expression `KeyError or IOError` evaluates to `KeyError` — so the whole
translation aborts.  The same token with the image readable yields the
symbol glyph. -/
theorem bliss_ioerror_uncaught :
    getBlissImg cfgBadImg "cat" = .error .ioError ∧
    translateStep cfgBadImg TransState.empty "cat" "NN" = .error .ioError ∧
    translateStep cfgEng TransState.empty "cat" "NN" =
      .ok (.symbolSub "cat", addChanged TransState.empty "cat") := by decide

/-! ## C10: lowercasing -/

/-- Replaces the payload of a plain-text glyph by the given token and
leaves every other glyph unchanged. -/
def retoken (tok : String) : Glyph → Glyph
  | .text _ => .text tok
  | g => g

/-- C10: the per-token body of `translate` depends on the token only
through its lowercasing — two tokens with the same lowercase form (such as
`Cat` and `cat`) take the same branch, produce the same memory updates
(one shared memory entry) and the same glyph — except that the plain-text
fallback glyph carries the original, non-lowercased token. -/
theorem translate_lowercases (cfg : Config) (st : TransState) (tag t1 t2 : String)
    (h : pyLower t1 = pyLower t2) :
    translateStep cfg st t1 tag =
      Except.map (fun p => (retoken t1 p.1, p.2)) (translateStep cfg st t2 tag) := by
  unfold translateStep
  rw [h]
  by_cases h1 : (!isPunctuation (pyLower t2) && isChosenPOS cfg tag &&
      canBeTranslated cfg (getLexeme cfg (pyLower t2))) = true
  case neg =>
    rw [Bool.not_eq_true] at h1
    simp [h1, Except.map, retoken]
  by_cases h2 : (cfg.fast_translate || isSeen st (getLexeme cfg (pyLower t2))) = true
  case neg =>
    rw [Bool.not_eq_true] at h2
    simp [h1, h2, Except.map, retoken]
  cases himg : getBlissImg cfg (if isTranslatable cfg (getLexeme cfg (pyLower t2))
      then getLexeme cfg (pyLower t2)
      else getLexeme cfg (translateUntranslatable cfg (pyLower t2))) with
  | error e =>
    cases e <;> simp [h1, h2, himg, Except.map, retoken]
  | ok img =>
    by_cases h3 : (isChanged st (getLexeme cfg (pyLower t2)) && !cfg.sub_all) = true
    all_goals try rw [Bool.not_eq_true] at h3
    all_goals by_cases hpl : isPluralNoun cfg (pyLower t2) = true
    all_goals try rw [Bool.not_eq_true] at hpl
    all_goals
      cases hind : getBlissImg cfg "indicator (plural)" <;>
        simp [h1, h2, h3, himg, hpl, hind, Except.map, retoken]

/-- C10 witness: `Cat` and `cat` at the concrete English session. -/
theorem translate_lowercases_witness :
    translateStep cfgEng TransState.empty "Cat" "NN" =
      Except.map (fun p => (retoken "Cat" p.1, p.2))
        (translateStep cfgEng TransState.empty "cat" "NN") :=
  translate_lowercases cfgEng TransState.empty "NN" "Cat" "cat" (by decide)

/-! ## C8: layout bounds -/

/-- C8 counterexample: a 100 px-wide glyph on a 50 px-wide, 50 px-high
page is placed at x = 0 with its right edge at 100 px, past the page
width, and with its line bottom (one line height, 90 px) past the page
height: the loop places the overflowing glyph instead of breaking
further. -/
theorem layout_overflow_cex :
    (layoutRun layoutTiny (initLayout layoutTiny) [("word", 100)]).placements =
      [{ x := 0, lineNo := 0, width := 100 }] ∧
    ¬ placedOK layoutTiny { x := 0, lineNo := 0, width := 100 } := by decide

/-- The wrap decision never yields a paste position whose right edge
passes the page width, provided the glyph itself fits the page width and,
when the token is the newline marker, fits next to the paragraph
indent. -/
theorem wrapDecision_bound (cfg : LayoutConfig) (indent line_no : Nat)
    (this_word next_word1 next_word2 : String) (w space : Nat)
    (hw : w ≤ cfg.img_w)
    (hn : this_word = "\n" → cfg.font_size + w ≤ cfg.img_w) :
    (wrapDecision cfg indent line_no this_word next_word1 next_word2 w space).1 + w ≤
      cfg.img_w := by
  unfold wrapDecision
  split
  · simpa using hw
  next hfit =>
    rw [Nat.not_lt] at hfit
    split
    · split
      · simpa using hw
      · simpa using hfit
    · split
      next hnl =>
        have hthis : this_word = "\n" := by simpa using hnl
        simpa using hn hthis
      · simpa using hfit

/-- The page-break decision never yields a line whose bottom edge passes
the page height, provided one line height fits the page. -/
theorem pageDecision_bound (cfg : LayoutConfig) (line_no pages : Nat)
    (hh : cfg.font_size * 3 ≤ cfg.img_h) :
    ((pageDecision cfg line_no pages).1 + 1) * (cfg.font_size * 3) ≤ cfg.img_h := by
  unfold pageDecision
  split
  · simpa using hh
  next hle => simpa using Nat.not_lt.mp hle

/-- One layout iteration adds only placements within both page bounds. -/
theorem layoutStep_placements_ok (cfg : LayoutConfig) (st : LayoutState)
    (this_word next_word1 next_word2 : String) (w : Nat)
    (hw : w ≤ cfg.img_w) (hn : this_word = "\n" → cfg.font_size + w ≤ cfg.img_w)
    (hh : cfg.font_size * 3 ≤ cfg.img_h) (q : Placement)
    (hq : q ∈ (layoutStep cfg st this_word next_word1 next_word2 w).placements) :
    q ∈ st.placements ∨ placedOK cfg q := by
  rcases List.mem_cons.mp hq with hnew | hmem
  · refine Or.inr ?_
    subst hnew
    exact ⟨wrapDecision_bound cfg st.indent st.line_no this_word next_word1 next_word2 w _
        hw hn,
      pageDecision_bound cfg _ st.pagesDone hh⟩
  · exact Or.inl hmem

/-- Every placement the layout loop makes from any starting cursor is
either inherited from the start state or within bounds. -/
theorem layoutRun_placements_aux (cfg : LayoutConfig) (toks : List (String × Nat)) :
    ∀ st : LayoutState, (∀ p ∈ toks, p.2 ≤ cfg.img_w) →
      (∀ p ∈ toks, p.1 = "\n" → cfg.font_size + p.2 ≤ cfg.img_w) →
      cfg.font_size * 3 ≤ cfg.img_h →
      ∀ q ∈ (layoutRun cfg st toks).placements, q ∈ st.placements ∨ placedOK cfg q := by
  induction toks with
  | nil =>
    intro st _ _ _ q hq
    exact Or.inl hq
  | cons p rest ih =>
    obtain ⟨t, w⟩ := p
    intro st hw hn hh q hq
    rw [layoutRun] at hq
    rcases ih (layoutStep cfg st t (tokenAt rest 0) (tokenAt rest 1) w)
        (fun x hx => hw x (List.mem_cons_of_mem _ hx))
        (fun x hx => hn x (List.mem_cons_of_mem _ hx)) hh q hq with hmem | hok
    · exact layoutStep_placements_ok cfg st t (tokenAt rest 0) (tokenAt rest 1) w
        (hw (t, w) (List.mem_cons_self _ _)) (hn (t, w) (List.mem_cons_self _ _)) hh q hmem
    · exact Or.inr hok

/-- C8 (amended): provided every glyph is at most the page width wide,
every newline glyph fits next to the paragraph indent (`font_size`), and
one line height (`font_size * 3`) fits the page height, no placed glyph's
right edge exceeds the page width and no placed line's bottom edge
exceeds the page height.  (Without those provisos the bound fails: see
the counterexample, where an over-wide glyph is placed past both
edges.) -/
theorem layout_bounds (cfg : LayoutConfig) (toks : List (String × Nat))
    (hw : ∀ p ∈ toks, p.2 ≤ cfg.img_w)
    (hn : ∀ p ∈ toks, p.1 = "\n" → cfg.font_size + p.2 ≤ cfg.img_w)
    (hh : cfg.font_size * 3 ≤ cfg.img_h)
    (q : Placement) (hq : q ∈ (layoutRun cfg (initLayout cfg) toks).placements) :
    placedOK cfg q := by
  rcases layoutRun_placements_aux cfg toks (initLayout cfg) hw hn hh q hq with hmem | hok
  · simp [initLayout] at hmem
  · exact hok

/-- C8 witness: a two-token run on the default 816 x 1056 page keeps its
first placement within both bounds. -/
theorem layout_bounds_witness :
    placedOK layoutPage { x := 30, lineNo := 0, width := 50 } :=
  layout_bounds layoutPage [("the", 50), ("cat", 60)] (by decide) (by decide) (by decide)
    { x := 30, lineNo := 0, width := 50 } (by decide)

end Blisscribe
